import Mathlib

/-!
# ReadableStream binding (`JSReadableStream.cpp`)

A shallow embedding of the generated binding file
`src/javascript/jsc/bindings/webcore/JSReadableStream.cpp`: the prototype
property table, the class-info objects, the creation functions and the
`constructor` getter, over an explicit heap of cells; and the stream engine
that the builtin rows of the table bind, as the specification describes it.
-/

namespace WebCore

/-! ## Property attributes and the prototype hash table -/

/-- The `JSC::PropertyAttribute` flags that occur in the file. A combination
`A | B | C` is the list of the flags joined by `|`; `| 0` adds nothing. -/
inductive PropertyAttribute where
  | ReadOnly
  | DontEnum
  | DontDelete
  | Accessor
  | Builtin
  deriving DecidableEq, Repr

/-- A combination of attribute flags (the `unsigned` of the table). -/
abbrev Attributes := List PropertyAttribute

/-- Flag test: `attributes & flag`. -/
def carries (attrs : Attributes) (flag : PropertyAttribute) : Bool :=
  attrs.contains flag

/-- The first slot of a `HashTableValue`: the function the entry is bound to,
with the cast it is stored under. -/
inductive FirstSlot where
  /-- Case `static_cast<PropertySlot::GetValueFunc>(f)`: a native custom getter. -/
  | GetValueFunc (f : String)
  /-- Case `static_cast<BuiltinGenerator>(g)`: a builtin code generator. -/
  | BuiltinGenerator (g : String)
  deriving DecidableEq, Repr

/-- The second slot of a `HashTableValue`. -/
inductive SecondSlot where
  /-- Case `static_cast<PutPropertySlot::PutValueFunc>(f)`; `none` is the null pointer `0`. -/
  | PutValueFunc (f : Option String)
  /-- Case `(intptr_t)(n)`. -/
  | intptr (n : Int)
  deriving DecidableEq, Repr

/-- The `intptr_t` stored in the second slot, when the source fixes it: a null
function pointer and a literal are known, the address of a function is not. -/
def SecondSlot.raw : SecondSlot → Option Int
  | .PutValueFunc none => some 0
  | .PutValueFunc (some _) => none
  | .intptr n => some n

/-- The only intrinsic used in the table. -/
inductive Intrinsic where
  | NoIntrinsic
  deriving DecidableEq, Repr

/-- One row of a static property table. -/
structure HashTableValue where
  m_key : String
  m_attributes : Attributes
  m_intrinsic : Intrinsic
  value1 : FirstSlot
  value2 : SecondSlot
  deriving DecidableEq, Repr

open PropertyAttribute in
/-- The hash table for the prototype, rows in source order. -/
def JSReadableStreamPrototypeTableValues : List HashTableValue :=
  [ { m_key := "constructor", m_attributes := [DontEnum], m_intrinsic := .NoIntrinsic,
      value1 := .GetValueFunc "jsReadableStreamConstructor", value2 := .PutValueFunc none },
    { m_key := "locked", m_attributes := [DontEnum, ReadOnly, Accessor, Builtin],
      m_intrinsic := .NoIntrinsic,
      value1 := .BuiltinGenerator "readableStreamLockedCodeGenerator", value2 := .intptr 0 },
    { m_key := "cancel", m_attributes := [DontEnum, Builtin], m_intrinsic := .NoIntrinsic,
      value1 := .BuiltinGenerator "readableStreamCancelCodeGenerator", value2 := .intptr 0 },
    { m_key := "getReader", m_attributes := [DontEnum, Builtin], m_intrinsic := .NoIntrinsic,
      value1 := .BuiltinGenerator "readableStreamGetReaderCodeGenerator", value2 := .intptr 0 },
    { m_key := "pipeTo", m_attributes := [DontEnum, Builtin], m_intrinsic := .NoIntrinsic,
      value1 := .BuiltinGenerator "readableStreamPipeToCodeGenerator", value2 := .intptr 1 },
    { m_key := "pipeThrough", m_attributes := [DontEnum, Builtin], m_intrinsic := .NoIntrinsic,
      value1 := .BuiltinGenerator "readableStreamPipeThroughCodeGenerator", value2 := .intptr 2 },
    { m_key := "tee", m_attributes := [DontEnum, Builtin], m_intrinsic := .NoIntrinsic,
      value1 := .BuiltinGenerator "readableStreamTeeCodeGenerator", value2 := .intptr 0 } ]

/-- The names of the rows of a table, in order. -/
def tableKeys (table : List HashTableValue) : List String :=
  table.map (·.m_key)

/-- The rows of a table stored under a name. -/
def tableEntries (table : List HashTableValue) (key : String) : List HashTableValue :=
  table.filter (fun v => v.m_key == key)

/-- The declared argument count of a row bound to a builtin function: the
number in its second slot. Rows not bound to a builtin have none. -/
def HashTableValue.functionLength (v : HashTableValue) : Option Int :=
  match v.value1, v.value2 with
  | .BuiltinGenerator _, .intptr n => some n
  | _, _ => none

/-- Whether a row is bound to a native custom getter. -/
def HashTableValue.isCustomGetter (v : HashTableValue) : Bool :=
  match v.value1 with
  | .GetValueFunc _ => true
  | .BuiltinGenerator _ => false

/-- Whether a row is bound to a builtin code generator. -/
def HashTableValue.isBuiltinGenerator (v : HashTableValue) : Bool :=
  match v.value1 with
  | .GetValueFunc _ => false
  | .BuiltinGenerator _ => true

/-- A parameter of a public operation: its name and whether it is optional
(written with a question mark). -/
structure Parameter where
  name : String
  optional : Bool
  deriving DecidableEq, Repr

/-- The public signatures of the operations as the external interface of the
specification lists them: cancel(reason?), getReader(options?),
pipeTo(destination, options?), pipeThrough({writable, readable}, options?)
and tee(). -/
def specSignature : String → Option (List Parameter)
  | "cancel" => some [{ name := "reason", optional := true }]
  | "getReader" => some [{ name := "options", optional := true }]
  | "pipeTo" => some [{ name := "destination", optional := false },
                      { name := "options", optional := true }]
  | "pipeThrough" => some [{ name := "{writable, readable}", optional := false },
                           { name := "options", optional := true }]
  | "tee" => some []
  | _ => none

/-- The number of non-optional parameters of the public signature of an
operation. -/
def specRequiredParameters (operation : String) : Option Int :=
  (specSignature operation).map (fun ps => ((ps.filter (fun p => !p.optional)).length : Int))

/-- The declared argument counts recorded in the rows of a table under a name. -/
def declaredArgumentCounts (table : List HashTableValue) (key : String) : List (Option Int) :=
  (tableEntries table key).map HashTableValue.functionLength

/-! ## Class-info objects -/

/-- Addresses of the static `ClassInfo` objects. Class infos are compared by
address, never by name. The three objects defined in the file have a
constructor each; `external cls` is the `ClassInfo` of a class declared in a
header outside the file (the `Base::s_info` of the three, or the class of an
unrelated object). -/
inductive ClassInfoRef where
  | JSReadableStreamDOMConstructor
  | JSReadableStreamPrototype
  | JSReadableStream
  | external (cls : String)
  deriving DecidableEq, Repr

/-- The fields of a `ClassInfo` that the file sets: `{ className, parentClass, ... }`. -/
structure ClassInfo where
  className : String
  parentClass : Option ClassInfoRef
  deriving DecidableEq, Repr

/-- Line 86: `JSReadableStreamDOMConstructor::s_info`. -/
def JSReadableStreamDOMConstructor.s_info : ClassInfo :=
  { className := "ReadableStream",
    parentClass := some (.external "JSDOMBuiltinConstructorBase") }

/-- Line 120: `JSReadableStreamPrototype::s_info`, with `Base = JSC::JSNonFinalObject`. -/
def JSReadableStreamPrototype.s_info : ClassInfo :=
  { className := "ReadableStream", parentClass := some (.external "JSC::JSNonFinalObject") }

/-- Line 131: `JSReadableStream::s_info`, with `Base = JSDOMObject`. -/
def JSReadableStream.s_info : ClassInfo :=
  { className := "ReadableStream", parentClass := some (.external "JSDOMObject") }

/-- The object behind a class-info address. The objects of classes declared
outside the file are not available; they belong to base classes of the engine
and to unrelated classes, none of which derives from a class of this file, so
a walk up the parent chain is cut when it reaches one. -/
def ClassInfoRef.deref : ClassInfoRef → Option ClassInfo
  | .JSReadableStreamDOMConstructor => some JSReadableStreamDOMConstructor.s_info
  | .JSReadableStreamPrototype => some JSReadableStreamPrototype.s_info
  | .JSReadableStream => some JSReadableStream.s_info
  | .external _ => none

/-- The loop `for (ci = this; ci; ci = ci->parentClass) if (ci == other) return true;`
with an explicit bound on the number of iterations. -/
def isSubClassOfFuel : Nat → ClassInfoRef → ClassInfoRef → Bool
  | 0, _, _ => false
  | fuel + 1, ci, other =>
    if ci = other then true
    else
      match ci.deref with
      | none => false
      | some info =>
        match info.parentClass with
        | none => false
        | some parent => isSubClassOfFuel fuel parent other

/-- Test `ClassInfo::isSubClassOf`. Every chain that starts at a class of this file reaches an
external class after one step, so four iterations cover every chain. -/
def isSubClassOf (ci other : ClassInfoRef) : Bool :=
  isSubClassOfFuel 4 ci other

/-! ## Values, cells and the heap -/

/-- Property keys. -/
inductive PropertyName where
  /-- Ordinary identifiers: `vm.propertyNames->length` and the names of table rows. -/
  | identifier (s : String)
  /-- Private names: `builtinNames().xxxPrivateName()`. -/
  | privateName (s : String)
  /-- Well-known symbols: `vm.propertyNames->toStringTagSymbol`. -/
  | symbol (s : String)
  deriving DecidableEq, Repr

/-- Values that properties of the cells of this file hold. -/
inductive JSValue where
  | undefined
  /-- Value `jsNumber(n)`. -/
  | number (n : Int)
  /-- Value `jsNontrivialString(vm, s)`. -/
  | string (s : String)
  /-- A pointer to a heap cell. -/
  | cell (addr : Nat)
  /-- The property materialised from a row of a static table. -/
  | fromTable (value1 : FirstSlot) (value2 : SecondSlot)
  deriving DecidableEq, Repr

/-- One own property of an object. -/
structure PropertyEntry where
  key : PropertyName
  value : JSValue
  attributes : Attributes
  deriving DecidableEq, Repr

/-- A heap cell: the parts of its structure that the file uses (class info,
global object, stored prototype), its own properties, the `m_originalName`
field of functions, and whether its destructor has run. -/
structure JSCell where
  classInfo : ClassInfoRef
  globalObject : Nat
  storedPrototype : JSValue
  properties : List PropertyEntry
  m_originalName : Option JSValue
  destructed : Bool
  deriving DecidableEq, Repr

/-- The heap of a VM; the address of a cell is its index. For each global
object, `cachedDOMPrototype` holds the address of the stored prototype of the
`JSReadableStream` structure that the global object has cached, if it has
cached one. -/
structure VM where
  heap : List JSCell
  cachedDOMPrototype : List (Nat × Nat) := []
  deriving DecidableEq, Repr

/-- Accessors of the global object and of the binding layer that the file
calls and that are declared in headers outside it, taken as parameters. Each
returns an object that the global object holds, so its result is a function
of the global object. -/
structure Host where
  /-- Call `globalObject.functionPrototype()`. -/
  functionPrototype : Nat → JSValue
  /-- Call `globalObject.objectPrototype()`. -/
  objectPrototype : Nat → JSValue
  /-- Call `getDOMConstructor<JSReadableStreamDOMConstructor, DOMConstructorID::ReadableStream>(vm, globalObject)`. -/
  getDOMConstructor : Nat → JSValue

/-- Errors a native function throws. -/
inductive ErrorType where
  | TypeError
  deriving DecidableEq, Repr

/-- Own-property lookup in a property list. -/
def findEntry (props : List PropertyEntry) (key : PropertyName) : Option PropertyEntry :=
  props.find? (fun e => decide (e.key = key))

/-- Define an own property in a property list: the entry with the key is
replaced, and without one the entry is added at the end. -/
def putEntry : List PropertyEntry → PropertyEntry → List PropertyEntry
  | [], entry => [entry]
  | e :: rest, entry => if e.key = entry.key then entry :: rest else e :: putEntry rest entry

/-- Apply a change to the cell at an address; other cells, and a heap without
that address, are unchanged. -/
def VM.modify (vm : VM) (addr : Nat) (f : JSCell → JSCell) : VM :=
  { vm with heap := vm.heap.modify f addr }

/-- Call `allocateCell`: a new cell at the end of the heap. -/
def VM.allocateCell (vm : VM) (c : JSCell) : Nat × VM :=
  (vm.heap.length, { vm with heap := vm.heap ++ [c] })

/-- Call `object->putDirect(vm, key, value, attributes)`. -/
def VM.putDirect (vm : VM) (addr : Nat) (key : PropertyName) (value : JSValue)
    (attributes : Attributes) : VM :=
  vm.modify addr (fun c =>
    { c with properties := putEntry c.properties { key := key, value := value, attributes := attributes } })

/-- Name `clientData->builtinNames().bunNativePtrPrivateName()`. -/
def bunNativePtrPrivateName : PropertyName := .privateName "bunNativePtr"

/-- A raw store into an existing own property: the value of the entry under
the key is overwritten, whatever its attributes; other entries are unchanged. -/
def pokeEntry (key : PropertyName) (value : JSValue) (e : PropertyEntry) : PropertyEntry :=
  if e.key = key then { e with value := value } else e

/-- A raw store into the own property of the cell at an address. -/
def VM.poke (vm : VM) (addr : Nat) (key : PropertyName) (value : JSValue) : VM :=
  vm.modify addr (fun c => { c with properties := c.properties.map (pokeEntry key value) })

/-- Call `reifyStaticProperties(vm, classInfo, table, object)` of the engine: one
own property per row, under the identifier of the row, holding the slots of
the row with the attributes of the row. -/
def reifyStaticProperties (vm : VM) (classInfo : ClassInfoRef) (table : List HashTableValue)
    (addr : Nat) : VM :=
  let _ := classInfo
  table.foldl
    (fun vm v => vm.putDirect addr (.identifier v.m_key) (.fromTable v.value1 v.value2) v.m_attributes)
    vm

/-- The engine statement `JSC_TO_STRING_TAG_WITHOUT_TRANSITION()`: defines the
`Symbol.toStringTag` property holding `info()->className`, `DontEnum | ReadOnly`. -/
def JSC_TO_STRING_TAG_WITHOUT_TRANSITION (vm : VM) (info : ClassInfo) (addr : Nat) : VM :=
  vm.putDirect addr (.symbol "toStringTag") (.string info.className) [.DontEnum, .ReadOnly]

/-- Call `jsDynamicCast<T*>(value)`: the address of the cell when the value is a live
pointer to a cell whose class info inherits from that of `T`, else null. -/
def jsDynamicCast (vm : VM) (target : ClassInfoRef) (value : JSValue) : Option (Nat × JSCell) :=
  match value with
  | .cell addr =>
    match vm.heap[addr]? with
    | some c => if isSubClassOf c.classInfo target then some (addr, c) else none
    | none => none
  | _ => none

/-! ## The functions of the file -/

/-- Lines 88-92: `JSReadableStreamDOMConstructor::prototypeForStructure`. -/
def JSReadableStreamDOMConstructor.prototypeForStructure (host : Host) (globalObject : Nat) :
    JSValue :=
  host.functionPrototype globalObject

/-- Lines 103-106: `JSReadableStreamDOMConstructor::initializeExecutable` returns the
code generator of the builtin that initialises a stream. -/
def JSReadableStreamDOMConstructor.initializeExecutable : String :=
  "readableStreamInitializeReadableStreamCodeGenerator"

/-- Lines 122-129: `JSReadableStreamPrototype::finishCreation` on the cell at `self`;
`Base::finishCreation` defines no property. -/
def JSReadableStreamPrototype.finishCreation (vm : VM) (self : Nat) : VM :=
  let vm := vm.putDirect self bunNativePtrPrivateName (.number 0)
    ([.ReadOnly, .DontEnum, .DontDelete] ++ [])
  let vm := reifyStaticProperties vm .JSReadableStream JSReadableStreamPrototypeTableValues self
  JSC_TO_STRING_TAG_WITHOUT_TRANSITION vm JSReadableStreamPrototype.s_info self

/-- Lines 55-60 and 69-72: `JSReadableStreamPrototype::create` with the structure made
by `createStructure(vm, globalObject, prototype)`. -/
def JSReadableStreamPrototype.create (vm : VM) (globalObject : Nat) (prototype : JSValue) :
    Nat × VM :=
  let (ptr, vm) := vm.allocateCell
    { classInfo := .JSReadableStreamPrototype, globalObject := globalObject,
      storedPrototype := prototype, properties := [], m_originalName := none,
      destructed := false }
  (ptr, JSReadableStreamPrototype.finishCreation vm ptr)

/-- Lines 144-147: `JSReadableStream::createPrototype`. -/
def JSReadableStream.createPrototype (host : Host) (vm : VM) (globalObject : Nat) : Nat × VM :=
  JSReadableStreamPrototype.create vm globalObject (host.objectPrototype globalObject)

/-- The helper `getDOMPrototype<JSReadableStream>(vm, globalObject)` of the
binding layer, declared outside the file: the stored prototype of the
structure that the global object has cached for `JSReadableStream`; when none
is cached yet, the prototype is made by `JSReadableStream::createPrototype` of
this file and cached. -/
def getDOMPrototype (host : Host) (vm : VM) (globalObject : Nat) : JSValue × VM :=
  match vm.cachedDOMPrototype.lookup globalObject with
  | some prototype => (.cell prototype, vm)
  | none =>
    let (prototype, vm) := JSReadableStream.createPrototype host vm globalObject
    (.cell prototype,
      { vm with cachedDOMPrototype := (globalObject, prototype) :: vm.cachedDOMPrototype })

/-- Lines 149-152: `JSReadableStream::prototype`. -/
def JSReadableStream.prototype (host : Host) (vm : VM) (globalObject : Nat) : JSValue × VM :=
  getDOMPrototype host vm globalObject

/-- Lines 94-101: `JSReadableStreamDOMConstructor::initializeProperties`, on the
constructor cell at `self`. The argument `JSReadableStream::prototype(vm,
globalObject)` of the last call is evaluated after the statements before it. -/
def JSReadableStreamDOMConstructor.initializeProperties (host : Host) (vm : VM) (self : Nat)
    (globalObject : Nat) : VM :=
  let vm := vm.putDirect self (.identifier "length") (.number 0) [.ReadOnly, .DontEnum]
  let nameString := JSValue.string "ReadableStream"
  let vm := vm.modify self (fun c => { c with m_originalName := some nameString })
  let vm := vm.putDirect self (.identifier "name") nameString [.ReadOnly, .DontEnum]
  let (prototype, vm) := JSReadableStream.prototype host vm globalObject
  vm.putDirect self (.identifier "prototype") prototype [.ReadOnly, .DontEnum, .DontDelete]

/-- Lines 138-142: `JSReadableStream::finishCreation` on the cell at `self`:
`Base::finishCreation` defines no property, and the assertion
`inherits(info())` is checked; `none` is the failed assertion of a build with
assertions, and the heap is returned as it is otherwise. -/
def JSReadableStream.finishCreation (vm : VM) (self : Nat) : Option VM :=
  match vm.heap[self]? with
  | none => none
  | some c => if isSubClassOf c.classInfo .JSReadableStream then some vm else none

/-- Lines 154-157: `JSReadableStream::getConstructor`. -/
def JSReadableStream.getConstructor (host : Host) (globalObject : Nat) : JSValue :=
  host.getDOMConstructor globalObject

/-- Lines 165-173: the custom getter `jsReadableStreamConstructor`. -/
def jsReadableStreamConstructor (host : Host) (vm : VM) (lexicalGlobalObject : Nat)
    (thisValue : JSValue) : Except ErrorType JSValue :=
  let _ := lexicalGlobalObject
  match jsDynamicCast vm .JSReadableStreamPrototype thisValue with
  | none => .error .TypeError
  | some (_, prototype) => .ok (JSReadableStream.getConstructor host prototype.globalObject)

/-! ## The property list of a finished prototype -/

/-- The property list after `reifyStaticProperties`: the rows of the table
defined one after the other on a property list. -/
def reifiedProperties (table : List HashTableValue) (props : List PropertyEntry) :
    List PropertyEntry :=
  table.foldl
    (fun ps v => putEntry ps
      { key := .identifier v.m_key, value := .fromTable v.value1 v.value2,
        attributes := v.m_attributes })
    props

/-- The property list of a cell after `JSReadableStreamPrototype::finishCreation`:
the three statements of lines 126-128 on the property list the cell had. -/
def JSReadableStreamPrototype.finishedProperties (props : List PropertyEntry) :
    List PropertyEntry :=
  putEntry
    (reifiedProperties JSReadableStreamPrototypeTableValues
      (putEntry props
        { key := bunNativePtrPrivateName, value := .number 0,
          attributes := [.ReadOnly, .DontEnum, .DontDelete] ++ [] }))
    { key := .symbol "toStringTag", value := .string JSReadableStreamPrototype.s_info.className,
      attributes := [.DontEnum, .ReadOnly] }

/-! ## A small concrete heap -/

/-- A host whose global object `g` holds its constructor at address `g + 100`. -/
def sampleHost : Host :=
  { functionPrototype := fun _ => .undefined
    objectPrototype := fun _ => .undefined
    getDOMConstructor := fun g => .cell (g + 100) }

/-- A heap of three cells of global object 3: a prototype cell made by
createPrototype at address 0 and cached, a stream instance at address 1 and a
constructor cell without own properties at address 2. -/
def sampleVM : VM :=
  { heap := (JSReadableStream.createPrototype sampleHost { heap := [] } 3).2.heap ++
      [ { classInfo := .JSReadableStream, globalObject := 3, storedPrototype := .cell 0,
          properties := [], m_originalName := none, destructed := false },
        { classInfo := .JSReadableStreamDOMConstructor, globalObject := 3,
          storedPrototype := .undefined, properties := [], m_originalName := none,
          destructed := false } ],
    cachedDOMPrototype := [(3, 0)] }

namespace Engine

/-- Modelled from the spec: the bodies of the builtins are missing; the
lifecycle state of a stream is one of Readable, Closed, Errored(reason). -/
inductive StreamState where
  | Readable
  | Closed
  | Errored (reason : Nat)
  deriving DecidableEq, Repr

/-- Modelled from the spec: the bodies of the builtins are missing; a chunk is
an opaque value plus a non-negative size; `isBuffer` records whether it is a
buffer, which matters to byte streams only. -/
structure Chunk where
  value : Nat
  size : Nat
  isBuffer : Bool
  deriving DecidableEq, Repr

/-- Modelled from the spec: the bodies of the builtins are missing; the two
reader variants, default and byte-oriented (BYOB). -/
inductive ReaderMode where
  | default
  | byob
  deriving DecidableEq, Repr

/-- Modelled from the spec: the bodies of the builtins are missing; a reader is
created by getReader and holds the exclusive lock token. -/
structure Reader where
  id : Nat
  mode : ReaderMode
  deriving DecidableEq, Repr

/-- Modelled from the spec: the bodies of the builtins are missing; the error
kinds of the engine. -/
inductive ErrorKind where
  | TypeError
  | InvalidStateError
  | StreamError (reason : Nat)
  deriving DecidableEq, Repr

/-- Modelled from the spec: the bodies of the builtins are missing; the outcome
of a read request: a chunk with done false, done true, or a rejection. -/
inductive ReadResult where
  | value (chunk : Chunk)
  | done
  | rejected (e : ErrorKind)
  deriving DecidableEq, Repr

/-- Modelled from the spec: the bodies of the builtins are missing; the stream
entity of the data model. A read request is identified by a ticket, drawn from
`nextTicket` at each read call; `pendingReads` holds the tickets of the
requests awaiting a chunk, oldest first; `closeRequested` records a close
deferred until the queue drains; `sourceCancelled` records that the cancel
callback of the underlying source has been invoked. -/
structure Stream where
  state : StreamState
  queue : List Chunk
  queueTotalSize : Nat
  highWaterMark : Nat
  byteStream : Bool
  closeRequested : Bool
  sourceCancelled : Bool
  reader : Option Reader
  pendingReads : List Nat
  nextReaderId : Nat
  nextTicket : Nat
  deriving DecidableEq, Repr

/-- Modelled from the spec: the bodies of the builtins are missing; what a call
makes observable to its caller and to the holders of read requests. -/
inductive Event where
  /-- The call failed synchronously. -/
  | failed (e : ErrorKind)
  /-- Call getReader returned this reader. -/
  | attached (reader : Reader)
  /-- Call enqueue accepted the chunk. -/
  | accepted (chunk : Chunk)
  /-- The read request with this ticket was resolved or rejected. -/
  | settled (ticket : Nat) (result : ReadResult)
  /-- The read request with this ticket was queued as pending. -/
  | suspended (ticket : Nat)
  /-- The cancel callback of the underlying source was invoked. -/
  | sourceCancel (reason : Nat)
  deriving DecidableEq, Repr

/-- Modelled from the spec: the bodies of the builtins are missing;
construct(underlyingSource, strategy) gives a Readable stream with an empty
queue and no reader. -/
def construct (highWaterMark : Nat) (byteStream : Bool) : Stream :=
  { state := .Readable, queue := [], queueTotalSize := 0, highWaterMark := highWaterMark,
    byteStream := byteStream, closeRequested := false, sourceCancelled := false,
    reader := none, pendingReads := [], nextReaderId := 0, nextTicket := 0 }

/-- Modelled from the spec: the bodies of the builtins are missing; locked is
true iff a Reader is currently attached. -/
def locked (s : Stream) : Bool :=
  s.reader.isSome

/-- Modelled from the spec: the bodies of the builtins are missing; whether the
reader with this identity is the one attached to the stream. -/
def isAttached (s : Stream) (readerId : Nat) : Bool :=
  match s.reader with
  | some r => r.id == readerId
  | none => false

/-- Modelled from the spec: the bodies of the builtins are missing;
getReader(mode) fails with TypeError if the stream already has an attached
reader, else returns a new Reader bound to the stream and sets stream.reader. -/
def getReader (s : Stream) (mode : ReaderMode) : Stream × List Event :=
  match s.reader with
  | some _ => (s, [.failed .TypeError])
  | none =>
    let r : Reader := { id := s.nextReaderId, mode := mode }
    ({ s with reader := some r, nextReaderId := s.nextReaderId + 1 }, [.attached r])

/-- Modelled from the spec: the bodies of the builtins are missing;
releaseLock() detaches the reader without altering stream state or queue, and
rejects its pending read requests with TypeError. A reader that is not
attached has nothing to release. -/
def releaseLock (s : Stream) (readerId : Nat) : Stream × List Event :=
  if isAttached s readerId then
    ({ s with reader := none, pendingReads := [] },
      s.pendingReads.map (fun t => .settled t (.rejected .TypeError)))
  else (s, [])

/-- Modelled from the spec: the bodies of the builtins are missing; read()
fails with TypeError if the reader is not attached, rejects with the stored
reason if the stream is Errored, dequeues the oldest chunk if the queue is
non-empty (a deferred close takes effect when the queue drains), returns done
if the stream is Closed with an empty queue, and else queues a pending read
request. -/
def read (s : Stream) (readerId : Nat) : Stream × List Event :=
  let t := s.nextTicket
  let s := { s with nextTicket := t + 1 }
  if isAttached s readerId then
    match s.state with
    | .Errored reason => (s, [.settled t (.rejected (.StreamError reason))])
    | _ =>
      match s.queue with
      | c :: rest =>
        let s := { s with queue := rest, queueTotalSize := s.queueTotalSize - c.size }
        let s := if s.closeRequested && rest.isEmpty then { s with state := .Closed } else s
        (s, [.settled t (.value c)])
      | [] =>
        if s.state = .Closed then (s, [.settled t .done])
        else ({ s with pendingReads := s.pendingReads ++ [t] }, [.suspended t])
  else (s, [.settled t (.rejected .TypeError)])

/-- Modelled from the spec: the bodies of the builtins are missing;
enqueue(chunk) fails with InvalidStateError if the state is not Readable and
with TypeError if a BYOB reader is attached and a non-buffer chunk is enqueued
into a byte stream; on success it satisfies the oldest pending read request
if there is one, and else appends to the queue and updates queueTotalSize. -/
def enqueue (s : Stream) (chunk : Chunk) : Stream × List Event :=
  if s.state ≠ .Readable then (s, [.failed .InvalidStateError])
  else if s.byteStream && !chunk.isBuffer && (s.reader.map (·.mode) == some .byob) then
    (s, [.failed .TypeError])
  else
    match s.pendingReads with
    | t :: rest => ({ s with pendingReads := rest }, [.accepted chunk, .settled t (.value chunk)])
    | [] =>
      ({ s with queue := s.queue ++ [chunk], queueTotalSize := s.queueTotalSize + chunk.size },
        [.accepted chunk])

/-- Modelled from the spec: the bodies of the builtins are missing; close()
fails if the state is not Readable; if the queue is non-empty the transition
to Closed is deferred until the queue drains, else the stream is Closed at
once and the pending read requests are fulfilled with done. -/
def close (s : Stream) : Stream × List Event :=
  if s.state ≠ .Readable then (s, [.failed .TypeError])
  else if s.queue.isEmpty then
    ({ s with state := .Closed, pendingReads := [] },
      s.pendingReads.map (fun t => .settled t .done))
  else ({ s with closeRequested := true }, [])

/-- Modelled from the spec: the bodies of the builtins are missing;
error(reason) moves a Readable stream to Errored(reason), discards the queued
chunks and rejects all pending read requests with the reason; a Closed or
Errored stream never changes state again. -/
def error (s : Stream) (reason : Nat) : Stream × List Event :=
  if s.state ≠ .Readable then (s, [.failed .TypeError])
  else
    ({ s with state := .Errored reason, queue := [], queueTotalSize := 0, pendingReads := [] },
      s.pendingReads.map (fun t => .settled t (.rejected (.StreamError reason))))

/-- Modelled from the spec: the bodies of the builtins are missing; the
controller's cancel(reason) forwards to the cancel callback of the underlying
source, at most once per stream, and moves a Readable stream to Closed,
fulfilling the pending read requests with done. -/
def controllerCancel (s : Stream) (reason : Nat) : Stream × List Event :=
  let callback : List Event := if s.sourceCancelled then [] else [.sourceCancel reason]
  let s := { s with sourceCancelled := true }
  if s.state = .Readable then
    ({ s with state := .Closed, pendingReads := [] },
      callback ++ s.pendingReads.map (fun t => .settled t .done))
  else (s, callback)

/-- Modelled from the spec: the bodies of the builtins are missing; the
reader's cancel(reason) is the controller's cancel, permitted only while the
reader is attached. -/
def readerCancel (s : Stream) (readerId : Nat) (reason : Nat) : Stream × List Event :=
  if isAttached s readerId then controllerCancel s reason else (s, [.failed .TypeError])

/-- Modelled from the spec: the bodies of the builtins are missing; the
stream's cancel(reason) fails if the stream is locked, else it is the
controller's cancel. -/
def cancel (s : Stream) (reason : Nat) : Stream × List Event :=
  if locked s then (s, [.failed .TypeError]) else controllerCancel s reason

/-- Modelled from the spec: the bodies of the builtins are missing; the calls
that the host, the underlying source and the consumers make on a stream. -/
inductive Op where
  | getReader (mode : ReaderMode)
  | releaseLock (readerId : Nat)
  | read (readerId : Nat)
  | readerCancel (readerId : Nat) (reason : Nat)
  | cancel (reason : Nat)
  | enqueue (chunk : Chunk)
  | close
  | error (reason : Nat)
  deriving DecidableEq, Repr

/-- Modelled from the spec: the bodies of the builtins are missing; one call on
a stream. -/
def step (s : Stream) : Op → Stream × List Event
  | .getReader mode => getReader s mode
  | .releaseLock readerId => releaseLock s readerId
  | .read readerId => read s readerId
  | .readerCancel readerId reason => readerCancel s readerId reason
  | .cancel reason => cancel s reason
  | .enqueue chunk => enqueue s chunk
  | .close => close s
  | .error reason => error s reason

/-- Modelled from the spec: the bodies of the builtins are missing; a sequence
of calls, one after the other (the model is single-threaded), with the events
of all of them in order. -/
def run (s : Stream) : List Op → Stream × List Event
  | [] => (s, [])
  | op :: ops =>
    let (s1, events) := step s op
    let (s2, more) := run s1 ops
    (s2, events ++ more)

/-- Modelled from the spec: the bodies of the builtins are missing; the chunks
that enqueue accepted, in order. -/
def acceptedChunks (log : List Event) : List Chunk :=
  log.filterMap (fun e => match e with
    | .accepted c => some c
    | _ => none)

/-- Modelled from the spec: the bodies of the builtins are missing; the chunks
that read requests returned, each with the ticket of its request, in the order
of delivery. -/
def deliveries (log : List Event) : List (Nat × Chunk) :=
  log.filterMap (fun e => match e with
    | .settled t (.value c) => some (t, c)
    | _ => none)

/-- Modelled from the spec: the bodies of the builtins are missing; the number
of read calls in a sequence of calls. -/
def readCount (ops : List Op) : Nat :=
  (ops.filter (fun op => match op with
    | .read _ => true
    | _ => false)).length

/-- Modelled from the spec: the bodies of the builtins are missing; a call that
is an enqueue, or a read on the given reader. -/
def isEnqueueOrRead (readerId : Nat) : Op → Bool
  | .enqueue _ => true
  | .read r => r == readerId
  | _ => false

/-- Modelled from the spec: the bodies of the builtins are missing; the chunks
passed to the enqueue calls of a sequence of calls, in order. -/
def enqueueArguments (ops : List Op) : List Chunk :=
  ops.filterMap (fun op => match op with
    | .enqueue c => some c
    | _ => none)

/-- Modelled from the spec: the bodies of the builtins are missing; a stream
with high-water mark 1, constructed and then locked by a default reader. -/
def sampleStream : Stream :=
  (getReader (construct 1 false) .default).1

/-- Modelled from the spec: the bodies of the builtins are missing; three
chunks of size 1 with values 10, 20 and 30. -/
def sampleChunk (n : Nat) : Chunk :=
  { value := 10 * n, size := 1, isBuffer := false }

end Engine

/-! ## Lemmas on property lists, the heap and class infos -/

theorem findEntry_cons (e : PropertyEntry) (rest : List PropertyEntry) (key : PropertyName) :
    findEntry (e :: rest) key = if e.key = key then some e else findEntry rest key := by
  by_cases h : e.key = key <;> simp [findEntry, List.find?_cons, h]

theorem findEntry_putEntry_same (props : List PropertyEntry) (entry : PropertyEntry) :
    findEntry (putEntry props entry) entry.key = some entry := by
  induction props with
  | nil => simp [putEntry, findEntry]
  | cons e rest ih =>
    by_cases h : e.key = entry.key
    · simp [putEntry, h, findEntry_cons]
    · simp [putEntry, h, findEntry_cons, ih]

theorem findEntry_putEntry_other (props : List PropertyEntry) (entry : PropertyEntry)
    (key : PropertyName) (hne : key ≠ entry.key) :
    findEntry (putEntry props entry) key = findEntry props key := by
  induction props with
  | nil =>
    have h : ¬ entry.key = key := fun h => hne h.symm
    simp [putEntry, findEntry_cons, h, findEntry]
  | cons e rest ih =>
    by_cases h : e.key = entry.key
    · have h1 : ¬ entry.key = key := fun h => hne h.symm
      have h2 : ¬ e.key = key := fun h2 => hne (h2.symm.trans h)
      simp [putEntry, h, findEntry_cons, h1, h2]
    · simp [putEntry, h, findEntry_cons, ih]

theorem pokeEntry_key (key : PropertyName) (value : JSValue) (e : PropertyEntry) :
    (pokeEntry key value e).key = e.key := by
  unfold pokeEntry
  split <;> rfl

theorem pokeEntry_other (key : PropertyName) (value : JSValue) (e : PropertyEntry)
    (hne : e.key ≠ key) : pokeEntry key value e = e := by
  simp [pokeEntry, hne]

theorem map_poke_putEntry (props : List PropertyEntry) (entry : PropertyEntry)
    (key : PropertyName) (value : JSValue) (hne : entry.key ≠ key) :
    (putEntry props entry).map (pokeEntry key value)
      = putEntry (props.map (pokeEntry key value)) entry := by
  induction props with
  | nil => simp [putEntry, pokeEntry_other key value entry hne]
  | cons e rest ih =>
    by_cases h : e.key = entry.key
    · simp [putEntry, h, pokeEntry_key, pokeEntry_other key value entry hne]
    · simp [putEntry, h, pokeEntry_key, ih]

theorem findEntry_map_poke_other (props : List PropertyEntry) (key other : PropertyName)
    (value : JSValue) (hne : other ≠ key) :
    findEntry (props.map (pokeEntry key value)) other = findEntry props other := by
  induction props with
  | nil => rfl
  | cons e rest ih =>
    by_cases h : e.key = other
    · have hk : e.key ≠ key := fun hk => hne (h.symm.trans hk)
      simp [findEntry_cons, pokeEntry_key, h, pokeEntry_other key value e hk]
    · simp [findEntry_cons, pokeEntry_key, h, ih]

theorem VM.modify_get_same (vm : VM) (addr : Nat) (f : JSCell → JSCell) :
    (vm.modify addr f).heap[addr]? = (vm.heap[addr]?).map f := by
  simp [VM.modify]

theorem VM.modify_modify (vm : VM) (addr : Nat) (f g : JSCell → JSCell) :
    (vm.modify addr f).modify addr g = vm.modify addr (g ∘ f) := by
  simp [VM.modify, List.modify_modify_eq]

theorem VM.modify_comm (vm : VM) (a b : Nat) (f g : JSCell → JSCell)
    (hfg : ∀ c, f (g c) = g (f c)) :
    (vm.modify a f).modify b g = (vm.modify b g).modify a f := by
  by_cases hab : a = b
  · subst hab
    rw [VM.modify_modify, VM.modify_modify]
    congr 1
    funext c
    exact (hfg c).symm
  · simp only [VM.modify]
    rw [List.modify_modify_ne _ _ _ hab]

theorem VM.poke_putDirect (vm : VM) (a addr : Nat) (slot k : PropertyName) (v value : JSValue)
    (attributes : Attributes) (hne : k ≠ slot) :
    (vm.poke a slot v).putDirect addr k value attributes
      = (vm.putDirect addr k value attributes).poke a slot v := by
  unfold VM.poke VM.putDirect
  apply VM.modify_comm
  intro c
  simp only [JSCell.mk.injEq, true_and, and_true]
  exact map_poke_putEntry c.properties _ slot v hne

theorem isSubClassOf_prototype (ci : ClassInfoRef) :
    isSubClassOf ci .JSReadableStreamPrototype = true ↔ ci = .JSReadableStreamPrototype := by
  cases ci <;>
    simp [isSubClassOf, isSubClassOfFuel, ClassInfoRef.deref, JSReadableStreamDOMConstructor.s_info,
      JSReadableStream.s_info]

theorem isSubClassOfFuel_stable (fuel : Nat) (ci other : ClassInfoRef) :
    isSubClassOfFuel (fuel + 2) ci other = isSubClassOfFuel 2 ci other := by
  cases ci <;>
    simp [isSubClassOfFuel, ClassInfoRef.deref, JSReadableStreamDOMConstructor.s_info,
      JSReadableStream.s_info, JSReadableStreamPrototype.s_info]

/-! ## The prototype table: names, attributes, argument counts -/

/-- C1: the names of the prototype table are exactly constructor, locked,
cancel, getReader, pipeTo, pipeThrough and tee; no name is repeated, each of
the seven has exactly one row, and read, enqueue, close and releaseLock have
none. -/
theorem prototypeTable_names_exact :
    (∀ name : String, name ∈ tableKeys JSReadableStreamPrototypeTableValues ↔
        name ∈ ["constructor", "locked", "cancel", "getReader", "pipeTo", "pipeThrough", "tee"])
    ∧ (tableKeys JSReadableStreamPrototypeTableValues).Nodup
    ∧ (["constructor", "locked", "cancel", "getReader", "pipeTo", "pipeThrough", "tee"].map
        (fun name => (tableEntries JSReadableStreamPrototypeTableValues name).length)
        = [1, 1, 1, 1, 1, 1, 1])
    ∧ (["read", "enqueue", "close", "releaseLock"].map
        (fun name => (tableEntries JSReadableStreamPrototypeTableValues name).length)
        = [0, 0, 0, 0]) := by
  refine ⟨?_, by decide, by decide, by decide⟩
  intro name
  simp [tableKeys, JSReadableStreamPrototypeTableValues]

/-- C2: the row of locked is the only row under that name, carries ReadOnly and
Accessor, and has 0 in its second slot (no setter); the rows that carry
Accessor are exactly those named locked, so the rows of cancel, getReader,
pipeTo, pipeThrough and tee do not carry it and are bound to builtin
functions. -/
theorem prototypeTable_locked_readonly_accessor :
    ((tableEntries JSReadableStreamPrototypeTableValues "locked").map
        (fun v => (carries v.m_attributes .ReadOnly, carries v.m_attributes .Accessor,
          v.value2.raw)) = [(true, true, some 0)])
    ∧ ((JSReadableStreamPrototypeTableValues.filter
        (fun v => carries v.m_attributes .Accessor)).map (·.m_key) = ["locked"])
    ∧ (["cancel", "getReader", "pipeTo", "pipeThrough", "tee"].map
        (fun name => (tableEntries JSReadableStreamPrototypeTableValues name).map
          (fun v => (carries v.m_attributes .Accessor, v.isBuiltinGenerator)))
        = [[(false, true)], [(false, true)], [(false, true)], [(false, true)], [(false, true)]]) := by
  refine ⟨by decide, by decide, by decide⟩

/-- C3, as stated, fails: the declared argument count recorded in the row of
pipeThrough is not the number of non-optional parameters of its public
signature, which is 1. -/
theorem pipeThrough_count_not_one :
    specRequiredParameters "pipeThrough" = some 1
    ∧ ¬ (declaredArgumentCounts JSReadableStreamPrototypeTableValues "pipeThrough" = [some 1]) := by
  refine ⟨by decide, by decide⟩

/-- C3, amended: the row of pipeThrough is the only row under that name and
records a declared argument count of 2: both parameters are counted. -/
theorem pipeThrough_count_two :
    declaredArgumentCounts JSReadableStreamPrototypeTableValues "pipeThrough" = [some 2] := by
  decide

/-- C4: for cancel, getReader, pipeTo and tee the declared argument count of the
row equals the number of non-optional parameters of the public signature: 0,
0, 1 and 0. -/
theorem declared_counts_match_signatures :
    (["cancel", "getReader", "pipeTo", "tee"].map
        (fun name => declaredArgumentCounts JSReadableStreamPrototypeTableValues name)
      = ["cancel", "getReader", "pipeTo", "tee"].map (fun name => [specRequiredParameters name]))
    ∧ (["cancel", "getReader", "pipeTo", "tee"].map
        (fun name => declaredArgumentCounts JSReadableStreamPrototypeTableValues name)
      = [[some 0], [some 0], [some 1], [some 0]]) := by
  refine ⟨by decide, by decide⟩

/-! ## Lemmas on allocation, finished prototypes and the prototype cache -/

theorem modify_append_of_lt {α : Type} (f : α → α) (l l2 : List α) (n : Nat)
    (h : n < l.length) : (l ++ l2).modify f n = l.modify f n ++ l2 := by
  induction l generalizing n with
  | nil => simp at h
  | cons x xs ih =>
    cases n with
    | zero => simp
    | succ m =>
      have hm : m < xs.length := by simpa using h
      simp [ih m hm]

theorem modify_append_length {α : Type} (f : α → α) (l : List α) (c : α) :
    (l ++ [c]).modify f l.length = l ++ [f c] := by
  induction l with
  | nil => simp
  | cons x xs ih => simp [ih]

theorem VM.modify_comm_ne (vm : VM) (a b : Nat) (f g : JSCell → JSCell) (hab : a ≠ b) :
    (vm.modify a f).modify b g = (vm.modify b g).modify a f := by
  simp only [VM.modify]
  rw [List.modify_modify_ne _ _ _ hab]

theorem VM.modify_id (vm : VM) (addr : Nat) : vm.modify addr (fun c => c) = vm := by
  have h : (fun c : JSCell => c) = id := rfl
  simp [VM.modify, h]

theorem reifyStaticProperties_eq_modify (table : List HashTableValue) (vm : VM)
    (classInfo : ClassInfoRef) (addr : Nat) :
    reifyStaticProperties vm classInfo table addr
      = vm.modify addr (fun c => { c with properties := reifiedProperties table c.properties }) := by
  induction table generalizing vm with
  | nil => exact (VM.modify_id vm addr).symm
  | cons v rest ih =>
    have hstep : reifyStaticProperties vm classInfo (v :: rest) addr
        = reifyStaticProperties
            (vm.putDirect addr (.identifier v.m_key) (.fromTable v.value1 v.value2) v.m_attributes)
            classInfo rest addr := rfl
    rw [hstep, ih, VM.putDirect, VM.modify_modify]
    rfl

theorem JSReadableStreamPrototype.finishCreation_eq_modify (vm : VM) (self : Nat) :
    JSReadableStreamPrototype.finishCreation vm self
      = vm.modify self (fun c =>
          { c with properties := JSReadableStreamPrototype.finishedProperties c.properties }) := by
  unfold JSReadableStreamPrototype.finishCreation JSC_TO_STRING_TAG_WITHOUT_TRANSITION
  simp only [reifyStaticProperties_eq_modify, VM.putDirect, VM.modify_modify]
  rfl

theorem JSReadableStream.createPrototype_eq (host : Host) (vm : VM) (globalObject : Nat) :
    JSReadableStream.createPrototype host vm globalObject
      = (vm.heap.length,
          { vm with heap := vm.heap ++
              [ { classInfo := .JSReadableStreamPrototype, globalObject := globalObject,
                  storedPrototype := host.objectPrototype globalObject,
                  properties := JSReadableStreamPrototype.finishedProperties [],
                  m_originalName := none, destructed := false } ] }) := by
  unfold JSReadableStream.createPrototype JSReadableStreamPrototype.create VM.allocateCell
  simp only [JSReadableStreamPrototype.finishCreation_eq_modify, VM.modify, modify_append_length]

theorem getDOMPrototype_fst_modify (host : Host) (vm : VM) (addr globalObject : Nat)
    (f : JSCell → JSCell) :
    (getDOMPrototype host (vm.modify addr f) globalObject).1
      = (getDOMPrototype host vm globalObject).1 := by
  unfold getDOMPrototype
  simp only [JSReadableStream.createPrototype_eq, VM.modify, List.length_modify]
  cases vm.cachedDOMPrototype.lookup globalObject <;> rfl

theorem getDOMPrototype_heap (host : Host) (vm : VM) (globalObject addr : Nat)
    (h : addr < vm.heap.length) :
    (getDOMPrototype host vm globalObject).2.heap[addr]? = vm.heap[addr]? := by
  unfold getDOMPrototype
  simp only [JSReadableStream.createPrototype_eq]
  cases vm.cachedDOMPrototype.lookup globalObject with
  | some p => rfl
  | none => simp [List.getElem?_append_left h]

theorem getDOMPrototype_modify (host : Host) (vm : VM) (globalObject addr : Nat)
    (f : JSCell → JSCell) (h : addr < vm.heap.length) :
    (getDOMPrototype host (vm.modify addr f) globalObject).2
      = (getDOMPrototype host vm globalObject).2.modify addr f := by
  unfold getDOMPrototype
  simp only [JSReadableStream.createPrototype_eq, VM.modify, List.length_modify]
  cases vm.cachedDOMPrototype.lookup globalObject with
  | some p => rfl
  | none => simp [modify_append_of_lt f vm.heap _ addr h]

theorem initializeProperties_eq (host : Host) (vm : VM) (self globalObject : Nat)
    (h : self < vm.heap.length) :
    JSReadableStreamDOMConstructor.initializeProperties host vm self globalObject
      = (getDOMPrototype host vm globalObject).2.modify self (fun c =>
          { c with
            properties := putEntry (putEntry (putEntry c.properties
              { key := .identifier "length", value := .number 0,
                attributes := [.ReadOnly, .DontEnum] })
              { key := .identifier "name", value := .string "ReadableStream",
                attributes := [.ReadOnly, .DontEnum] })
              { key := .identifier "prototype",
                value := (getDOMPrototype host vm globalObject).1,
                attributes := [.ReadOnly, .DontEnum, .DontDelete] },
            m_originalName := some (.string "ReadableStream") }) := by
  unfold JSReadableStreamDOMConstructor.initializeProperties JSReadableStream.prototype
  simp only [VM.putDirect, VM.modify_modify]
  rw [getDOMPrototype_fst_modify, getDOMPrototype_modify _ _ _ _ _ h, VM.modify_modify]
  rfl

theorem getDOMPrototype_cached (host : Host) (vm : VM) (globalObject : Nat) :
    (getDOMPrototype host vm globalObject).2.cachedDOMPrototype.lookup globalObject
      = match (getDOMPrototype host vm globalObject).1 with
        | .cell p => some p
        | _ => none := by
  unfold getDOMPrototype
  simp only [JSReadableStream.createPrototype_eq]
  cases h : vm.cachedDOMPrototype.lookup globalObject with
  | some p => simp [h]
  | none => simp

theorem getDOMPrototype_idempotent (host : Host) (vm : VM) (globalObject : Nat) (w : VM)
    (hw : w.cachedDOMPrototype = (getDOMPrototype host vm globalObject).2.cachedDOMPrototype) :
    (getDOMPrototype host w globalObject).1 = (getDOMPrototype host vm globalObject).1 := by
  have h := getDOMPrototype_cached host vm globalObject
  rw [← hw] at h
  have hcell : ∃ p, (getDOMPrototype host vm globalObject).1 = .cell p := by
    unfold getDOMPrototype
    simp only [JSReadableStream.createPrototype_eq]
    cases vm.cachedDOMPrototype.lookup globalObject with
    | some p => exact ⟨p, rfl⟩
    | none => exact ⟨_, rfl⟩
  obtain ⟨p, hp⟩ := hcell
  rw [hp] at h ⊢
  simp only at h
  unfold getDOMPrototype
  rw [h]

/-! ## The constructor getter and the constructor's own properties -/

/-- C8: the getter fails with TypeError exactly when its this-value is not a
pointer to a cell whose class info is that of JSReadableStreamPrototype (so
for undefined, for a stream instance and for an object of a class declared
elsewhere); for a prototype cell it returns, from every lexical global
object, the constructor of the global object of that cell. -/
theorem constructor_getter_typeError_iff (host : Host) (vm : VM) (lexicalGlobalObject : Nat)
    (thisValue : JSValue) :
    (jsReadableStreamConstructor host vm lexicalGlobalObject thisValue = .error .TypeError ↔
      ¬ ∃ addr c, thisValue = .cell addr ∧ vm.heap[addr]? = some c
          ∧ c.classInfo = .JSReadableStreamPrototype)
    ∧ (∀ addr c, thisValue = .cell addr → vm.heap[addr]? = some c →
        c.classInfo = .JSReadableStreamPrototype →
        ∀ otherGlobalObject,
          jsReadableStreamConstructor host vm otherGlobalObject thisValue
            = .ok (JSReadableStream.getConstructor host c.globalObject))
    ∧ jsReadableStreamConstructor host vm lexicalGlobalObject .undefined = .error .TypeError
    ∧ (∀ addr c, thisValue = .cell addr → vm.heap[addr]? = some c →
        (c.classInfo = .JSReadableStream ∨ ∃ cls, c.classInfo = .external cls) →
        jsReadableStreamConstructor host vm lexicalGlobalObject thisValue = .error .TypeError) := by
  refine ⟨?_, ?_, ?_, ?_⟩
  · constructor
    · rintro h ⟨addr, c, rfl, hc, hci⟩
      have hsub : isSubClassOf c.classInfo .JSReadableStreamPrototype = true :=
        (isSubClassOf_prototype _).2 hci
      simp [jsReadableStreamConstructor, jsDynamicCast, hc, hsub] at h
    · intro h
      cases thisValue with
      | cell addr =>
        cases hc : vm.heap[addr]? with
        | none => simp [jsReadableStreamConstructor, jsDynamicCast, hc]
        | some c =>
          have hci : c.classInfo ≠ .JSReadableStreamPrototype := fun hci =>
            h ⟨addr, c, rfl, hc, hci⟩
          have hsub : isSubClassOf c.classInfo .JSReadableStreamPrototype = false := by
            cases hb : isSubClassOf c.classInfo .JSReadableStreamPrototype with
            | false => rfl
            | true => exact absurd ((isSubClassOf_prototype _).1 hb) hci
          simp [jsReadableStreamConstructor, jsDynamicCast, hc, hsub]
      | undefined => rfl
      | number n => rfl
      | string str => rfl
      | fromTable a b => rfl
  · rintro addr c rfl hc hci other
    have hsub : isSubClassOf c.classInfo .JSReadableStreamPrototype = true :=
      (isSubClassOf_prototype _).2 hci
    simp [jsReadableStreamConstructor, jsDynamicCast, hc, hsub]
  · rfl
  · rintro addr c rfl hc hci
    have hsub : isSubClassOf c.classInfo .JSReadableStreamPrototype = false := by
      cases hb : isSubClassOf c.classInfo .JSReadableStreamPrototype with
      | false => rfl
      | true =>
        have := (isSubClassOf_prototype _).1 hb
        rcases hci with h1 | ⟨cls, h1⟩ <;> rw [h1] at this <;> cases this
    simp [jsReadableStreamConstructor, jsDynamicCast, hc, hsub]

/-- C9: on a constructor cell, initializeProperties defines length as 0 and
name as the string ReadableStream, both ReadOnly and DontEnum only, and
prototype as JSReadableStream::prototype of the global object, ReadOnly,
DontEnum and DontDelete; it stores the same name string as the original name;
it leaves every other own property as it was, so a cell that had no own
property has exactly these three; the class name of the constructor, the
prototype and the instance class infos is the same string ReadableStream; and
JSReadableStream::prototype of the global object returns the same object
before and after. -/
theorem initializeProperties_defines_three (host : Host) (vm : VM) (self globalObject : Nat)
    (c : JSCell) (hc : vm.heap[self]? = some c) :
    ∃ c', (JSReadableStreamDOMConstructor.initializeProperties host vm self globalObject).heap[self]?
        = some c'
      ∧ findEntry c'.properties (.identifier "length")
          = some { key := .identifier "length", value := .number 0,
                   attributes := [.ReadOnly, .DontEnum] }
      ∧ findEntry c'.properties (.identifier "name")
          = some { key := .identifier "name", value := .string "ReadableStream",
                   attributes := [.ReadOnly, .DontEnum] }
      ∧ findEntry c'.properties (.identifier "prototype")
          = some { key := .identifier "prototype",
                   value := (JSReadableStream.prototype host vm globalObject).1,
                   attributes := [.ReadOnly, .DontEnum, .DontDelete] }
      ∧ c'.m_originalName = some (.string "ReadableStream")
      ∧ (∀ key, key ≠ .identifier "length" → key ≠ .identifier "name" →
          key ≠ .identifier "prototype" →
          findEntry c'.properties key = findEntry c.properties key)
      ∧ (c.properties = [] → c'.properties.map (·.key)
          = [.identifier "length", .identifier "name", .identifier "prototype"])
      ∧ JSReadableStreamDOMConstructor.s_info.className = "ReadableStream"
      ∧ JSReadableStreamPrototype.s_info.className = "ReadableStream"
      ∧ JSReadableStream.s_info.className = "ReadableStream"
      ∧ (JSReadableStream.prototype host
            (JSReadableStreamDOMConstructor.initializeProperties host vm self globalObject)
            globalObject).1
          = (JSReadableStream.prototype host vm globalObject).1 := by
  have hlt : self < vm.heap.length := by
    rcases Nat.lt_or_ge self vm.heap.length with h | h
    · exact h
    · rw [List.getElem?_eq_none h] at hc
      cases hc
  refine ⟨{ c with
      properties := putEntry (putEntry (putEntry c.properties
        { key := .identifier "length", value := .number 0, attributes := [.ReadOnly, .DontEnum] })
        { key := .identifier "name", value := .string "ReadableStream",
          attributes := [.ReadOnly, .DontEnum] })
        { key := .identifier "prototype",
          value := (JSReadableStream.prototype host vm globalObject).1,
          attributes := [.ReadOnly, .DontEnum, .DontDelete] },
      m_originalName := some (.string "ReadableStream") }, ?_, ?_, ?_, ?_, ?_, ?_, ?_, rfl, rfl, rfl,
      ?_⟩
  · rw [initializeProperties_eq host vm self globalObject hlt, VM.modify_get_same,
      getDOMPrototype_heap host vm globalObject self hlt, hc]
    rfl
  · rw [findEntry_putEntry_other _ _ _ (by simp), findEntry_putEntry_other _ _ _ (by simp)]
    exact findEntry_putEntry_same _ _
  · rw [findEntry_putEntry_other _ _ _ (by simp)]
    exact findEntry_putEntry_same _ _
  · exact findEntry_putEntry_same _ _
  · rfl
  · intro key h1 h2 h3
    rw [findEntry_putEntry_other _ _ _ h3, findEntry_putEntry_other _ _ _ h2,
      findEntry_putEntry_other _ _ _ h1]
  · intro hnil
    simp [hnil, putEntry]
  · unfold JSReadableStream.prototype
    apply getDOMPrototype_idempotent
    rw [initializeProperties_eq host vm self globalObject hlt]
    rfl

/-- Witness of C8 on the small heap: from lexical global object 7 the getter
returns the constructor of global object 3 for the prototype cell, and throws
TypeError for the stream instance. -/
theorem constructor_getter_witness :
    jsReadableStreamConstructor sampleHost sampleVM 7 (.cell 0) = .ok (.cell 103)
    ∧ jsReadableStreamConstructor sampleHost sampleVM 7 (.cell 1) = .error .TypeError :=
  ⟨(constructor_getter_typeError_iff sampleHost sampleVM 7 (.cell 0)).2.1 0 _ rfl rfl rfl 7,
   (constructor_getter_typeError_iff sampleHost sampleVM 7 (.cell 1)).2.2.2 1 _ rfl rfl
     (Or.inl rfl)⟩

/-- Witness of C9 on the small heap: the constructor cell at address 2, which
had no own property, has exactly length, name and prototype afterwards. -/
theorem initializeProperties_witness :
    ∃ c', (JSReadableStreamDOMConstructor.initializeProperties sampleHost sampleVM 2 3).heap[2]?
        = some c'
      ∧ c'.properties.map (·.key)
          = [.identifier "length", .identifier "name", .identifier "prototype"] := by
  obtain ⟨c', h1, _, _, _, _, _, h7, _⟩ :=
    initializeProperties_defines_three sampleHost sampleVM 2 3 _ rfl
  exact ⟨c', h1, h7 rfl⟩

/-! ## The properties of the prototype object -/

theorem finishedProperties_nil_keys :
    (JSReadableStreamPrototype.finishedProperties []).map (·.key)
      = [bunNativePtrPrivateName, .identifier "constructor", .identifier "locked",
         .identifier "cancel", .identifier "getReader", .identifier "pipeTo",
         .identifier "pipeThrough", .identifier "tee", .symbol "toStringTag"] := by
  decide

theorem finishedProperties_nil_dontEnum :
    (JSReadableStreamPrototype.finishedProperties []).all
      (fun e => carries e.attributes .DontEnum) = true := by
  decide

theorem finishedProperties_nil_rows :
    ((JSReadableStreamPrototype.finishedProperties []).filter
        (fun e => e.key != bunNativePtrPrivateName && e.key != .symbol "toStringTag")).map
        (fun e => (e.key, e.attributes))
      = JSReadableStreamPrototypeTableValues.map
          (fun v => (.identifier v.m_key, v.m_attributes)) := by
  decide

/-- C10: every row of the prototype table carries DontEnum; every row other
than constructor carries Builtin and is bound to a builtin code generator; the
rows bound to a native custom getter are exactly those named constructor, and
that row is bound to jsReadableStreamConstructor with a null setter and
carries neither Builtin nor ReadOnly. So no property of the ReadableStream
prototype is enumerable: the own properties of the prototype cell that
createPrototype returns are the bunNativePtr slot, one property per row of
the table and the toStringTag symbol, and every one of them carries
DontEnum. -/
theorem prototypeTable_dontEnum_builtin :
    (JSReadableStreamPrototypeTableValues.all (fun v => carries v.m_attributes .DontEnum) = true)
    ∧ ((JSReadableStreamPrototypeTableValues.filter (fun v => v.m_key != "constructor")).all
        (fun v => carries v.m_attributes .Builtin && v.isBuiltinGenerator) = true)
    ∧ ((JSReadableStreamPrototypeTableValues.filter (fun v => v.isCustomGetter)).map (·.m_key)
        = ["constructor"])
    ∧ ((tableEntries JSReadableStreamPrototypeTableValues "constructor").map
        (fun v => (v.value1, v.value2, carries v.m_attributes .Builtin,
          carries v.m_attributes .ReadOnly))
        = [(.GetValueFunc "jsReadableStreamConstructor", .PutValueFunc none, false, false)])
    ∧ (∀ (host : Host) (vm : VM) (globalObject : Nat), ∃ cell,
        (JSReadableStream.createPrototype host vm globalObject).2.heap[
            (JSReadableStream.createPrototype host vm globalObject).1]? = some cell
        ∧ cell.classInfo = .JSReadableStreamPrototype
        ∧ cell.properties.map (·.key)
            = [bunNativePtrPrivateName, .identifier "constructor", .identifier "locked",
               .identifier "cancel", .identifier "getReader", .identifier "pipeTo",
               .identifier "pipeThrough", .identifier "tee", .symbol "toStringTag"]
        ∧ cell.properties.all (fun e => carries e.attributes .DontEnum) = true
        ∧ (cell.properties.filter (fun e => e.key != bunNativePtrPrivateName
              && e.key != .symbol "toStringTag")).map (fun e => (e.key, e.attributes))
            = JSReadableStreamPrototypeTableValues.map
                (fun v => (.identifier v.m_key, v.m_attributes))) := by
  refine ⟨by decide, by decide, by decide, by decide, ?_⟩
  intro host vm globalObject
  rw [JSReadableStream.createPrototype_eq]
  refine ⟨{ classInfo := .JSReadableStreamPrototype, globalObject := globalObject,
            storedPrototype := host.objectPrototype globalObject,
            properties := JSReadableStreamPrototype.finishedProperties [],
            m_originalName := none, destructed := false },
    by simp, rfl, finishedProperties_nil_keys, finishedProperties_nil_dontEnum,
    finishedProperties_nil_rows⟩

/-! ## The native handle slot -/

namespace Engine

theorem run_nil (s : Stream) : run s [] = (s, []) := rfl

theorem run_cons (s : Stream) (op : Op) (ops : List Op) :
    run s (op :: ops) = ((run (step s op).1 ops).1, (step s op).2 ++ (run (step s op).1 ops).2) := by
  simp only [run]

theorem step_keeps_reader (s : Stream) (r : Reader) (op : Op) (hr : s.reader = some r)
    (hop : op ≠ .releaseLock r.id) : (step s op).1.reader = some r := by
  cases op with
  | getReader mode => simp [step, getReader, hr]
  | releaseLock readerId =>
    have hne : ¬ r.id = readerId := fun h => hop (by rw [h])
    simp [step, releaseLock, isAttached, hr, hne]
  | read readerId =>
    simp only [step, read]
    split
    · split
      · exact hr
      · split
        · dsimp only
          split <;> exact hr
        · split <;> exact hr
    · exact hr
  | readerCancel readerId reason =>
    simp only [step, readerCancel, controllerCancel]
    split
    · split <;> exact hr
    · exact hr
  | cancel reason => simp [step, cancel, locked, hr]
  | enqueue chunk =>
    simp only [step, enqueue]
    split
    · exact hr
    · split
      · exact hr
      · split <;> exact hr
  | close =>
    simp only [step, close]
    split
    · exact hr
    · split <;> exact hr
  | error reason =>
    simp only [step, error]
    split <;> exact hr

theorem run_keeps_reader (ops : List Op) (s : Stream) (r : Reader) (hr : s.reader = some r)
    (hops : ∀ op ∈ ops, op ≠ .releaseLock r.id) : (run s ops).1.reader = some r := by
  induction ops generalizing s with
  | nil => exact hr
  | cons op rest ih =>
    rw [run_cons]
    exact ih _ (step_keeps_reader s r op hr (hops op (List.mem_cons_self _ _)))
      (fun o ho => hops o (List.mem_cons_of_mem _ ho))

theorem deliveries_append (l1 l2 : List Event) :
    deliveries (l1 ++ l2) = deliveries l1 ++ deliveries l2 := by
  simp [deliveries, List.filterMap_append]

theorem acceptedChunks_append (l1 l2 : List Event) :
    acceptedChunks (l1 ++ l2) = acceptedChunks l1 ++ acceptedChunks l2 := by
  simp [acceptedChunks, List.filterMap_append]

theorem readCount_enqueue (c : Chunk) (ops : List Op) :
    readCount (.enqueue c :: ops) = readCount ops := by
  simp [readCount]

theorem readCount_read (readerId : Nat) (ops : List Op) :
    readCount (.read readerId :: ops) = readCount ops + 1 := by
  simp [readCount]

theorem fifo_general (ops : List Op) :
    ∀ (s : Stream) (r : Reader) (pending : List Nat) (queue : List Chunk) (ticket : Nat),
      s.pendingReads = pending → s.queue = queue → s.nextTicket = ticket →
      s.state = .Readable → s.closeRequested = false →
      s.reader = some r → (pending = [] ∨ queue = []) →
      (∀ op ∈ ops, isEnqueueOrRead r.id op = true) →
      deliveries (run s ops).2
        = List.zip (pending ++ List.range' ticket (readCount ops))
            (queue ++ acceptedChunks (run s ops).2) := by
  induction ops with
  | nil =>
    intro s r pending queue ticket _ _ _ _ _ _ hinv _
    rcases hinv with h | h <;> simp [run, deliveries, acceptedChunks, readCount, h]
  | cons op rest ih =>
    intro s r pending queue ticket hP hQ hN hst hcr hr hinv hops
    have hrest : ∀ o ∈ rest, isEnqueueOrRead r.id o = true :=
      fun o ho => hops o (List.mem_cons_of_mem _ ho)
    have hop := hops op (List.mem_cons_self _ _)
    rw [run_cons]
    cases op with
    | enqueue c =>
      rw [readCount_enqueue]
      by_cases hb : (s.byteStream && !c.isBuffer && (s.reader.map (·.mode) == some .byob)) = true
      · have hstep : step s (.enqueue c) = (s, [.failed .TypeError]) := by
          simp only [step, enqueue, hst, hb]
          simp
        rw [hstep]
        have h := ih s r pending queue ticket hP hQ hN hst hcr hr hinv hrest
        simpa [deliveries_append, acceptedChunks_append, deliveries, acceptedChunks] using h
      · cases pending with
        | nil =>
          have hstep : step s (.enqueue c)
              = ({ s with queue := s.queue ++ [c],
                          queueTotalSize := s.queueTotalSize + c.size }, [.accepted c]) := by
            simp only [step, enqueue, hst, hb, hP]
            simp
          rw [hstep]
          have h := ih { s with queue := s.queue ++ [c],
                                queueTotalSize := s.queueTotalSize + c.size } r [] (queue ++ [c])
            ticket hP (by simp [hQ]) hN hst hcr hr (Or.inl rfl) hrest
          simp only [deliveries_append, acceptedChunks_append]
          have e1 : deliveries [Event.accepted c] = [] := rfl
          have e2 : acceptedChunks [Event.accepted c] = [c] := rfl
          rw [e1, e2, h]
          simp
        | cons t ts =>
          have hq : queue = [] := by
            rcases hinv with h | h
            · cases h
            · exact h
          subst hq
          have hstep : step s (.enqueue c)
              = ({ s with pendingReads := ts }, [.accepted c, .settled t (.value c)]) := by
            simp only [step, enqueue, hst, hb, hP]
            simp
          rw [hstep]
          have h := ih { s with pendingReads := ts } r ts [] ticket rfl hQ hN hst hcr hr
            (Or.inr rfl) hrest
          simp only [deliveries_append, acceptedChunks_append]
          have e1 : deliveries [Event.accepted c, Event.settled t (.value c)] = [(t, c)] := rfl
          have e2 : acceptedChunks [Event.accepted c, Event.settled t (.value c)] = [c] := rfl
          rw [e1, e2, h]
          simp
    | read readerId =>
      have hrid : readerId = r.id := by simpa [isEnqueueOrRead] using hop
      subst hrid
      rw [readCount_read]
      cases queue with
      | nil =>
        have hstep : step s (.read r.id)
            = ({ s with nextTicket := s.nextTicket + 1,
                        pendingReads := s.pendingReads ++ [s.nextTicket] },
                [.suspended s.nextTicket]) := by
          simp [step, read, isAttached, hr, hst, hQ]
        rw [hstep]
        have h := ih { s with nextTicket := s.nextTicket + 1,
                              pendingReads := s.pendingReads ++ [s.nextTicket] } r
          (pending ++ [ticket]) [] (ticket + 1) (by simp [hP, hN]) hQ (by simp [hN]) hst hcr hr
          (Or.inr rfl) hrest
        simp only [deliveries_append, acceptedChunks_append]
        have e1 : deliveries [Event.suspended s.nextTicket] = [] := rfl
        have e2 : acceptedChunks [Event.suspended s.nextTicket] = [] := rfl
        rw [e1, e2, h]
        simp [List.range'_succ]
      | cons c cs =>
        have hp : pending = [] := by
          rcases hinv with h | h
          · exact h
          · cases h
        subst hp
        have hstep : step s (.read r.id)
            = ({ s with nextTicket := s.nextTicket + 1, queue := cs,
                        queueTotalSize := s.queueTotalSize - c.size },
                [.settled s.nextTicket (.value c)]) := by
          simp [step, read, isAttached, hr, hst, hQ, hcr]
        rw [hstep]
        have h := ih { s with nextTicket := s.nextTicket + 1, queue := cs,
                              queueTotalSize := s.queueTotalSize - c.size } r [] cs (ticket + 1)
          hP rfl (by simp [hN]) hst hcr hr (Or.inl rfl) hrest
        simp only [deliveries_append, acceptedChunks_append]
        have e1 : deliveries [Event.settled s.nextTicket (.value c)] = [(s.nextTicket, c)] := rfl
        have e2 : acceptedChunks [Event.settled s.nextTicket (.value c)] = [] := rfl
        rw [e1, e2, h]
        simp [List.range'_succ, hN]
    | getReader mode => simp [isEnqueueOrRead] at hop
    | releaseLock readerId => simp [isEnqueueOrRead] at hop
    | readerCancel readerId reason => simp [isEnqueueOrRead] at hop
    | cancel reason => simp [isEnqueueOrRead] at hop
    | close => simp [isEnqueueOrRead] at hop
    | error reason => simp [isEnqueueOrRead] at hop

theorem step_enqueue_read_inv (s : Stream) (r : Reader) (op : Op)
    (hst : s.state = .Readable) (hcr : s.closeRequested = false) (hr : s.reader = some r)
    (hop : isEnqueueOrRead r.id op = true) :
    (step s op).1.state = .Readable ∧ (step s op).1.closeRequested = false
      ∧ (step s op).1.reader = some r := by
  cases op with
  | enqueue c =>
    simp only [step, enqueue]
    split
    · exact ⟨hst, hcr, hr⟩
    · split
      · exact ⟨hst, hcr, hr⟩
      · split <;> exact ⟨hst, hcr, hr⟩
  | read readerId =>
    have hrid : readerId = r.id := by simpa [isEnqueueOrRead] using hop
    subst hrid
    cases hq : s.queue with
    | nil => simp [step, read, isAttached, hr, hst, hq, hcr]
    | cons c cs => simp [step, read, isAttached, hr, hst, hq, hcr]
  | getReader mode => simp [isEnqueueOrRead] at hop
  | releaseLock readerId => simp [isEnqueueOrRead] at hop
  | readerCancel readerId reason => simp [isEnqueueOrRead] at hop
  | cancel reason => simp [isEnqueueOrRead] at hop
  | close => simp [isEnqueueOrRead] at hop
  | error reason => simp [isEnqueueOrRead] at hop

theorem step_settles_values (s : Stream) (r : Reader) (op : Op)
    (hst : s.state = .Readable) (hr : s.reader = some r)
    (hop : isEnqueueOrRead r.id op = true) :
    ∀ t res, Event.settled t res ∈ (step s op).2 → ∃ c, res = .value c := by
  intro t res hmem
  cases op with
  | enqueue c =>
    simp only [step, enqueue] at hmem
    split at hmem
    · simp at hmem
    · split at hmem
      · simp at hmem
      · split at hmem
        · simp at hmem
          exact ⟨c, hmem.2⟩
        · simp at hmem
  | read readerId =>
    have hrid : readerId = r.id := by simpa [isEnqueueOrRead] using hop
    subst hrid
    cases hq : s.queue with
    | nil => simp [step, read, isAttached, hr, hst, hq] at hmem
    | cons c cs =>
      simp [step, read, isAttached, hr, hst, hq] at hmem
      exact ⟨c, hmem.2⟩
  | getReader mode => simp [isEnqueueOrRead] at hop
  | releaseLock readerId => simp [isEnqueueOrRead] at hop
  | readerCancel readerId reason => simp [isEnqueueOrRead] at hop
  | cancel reason => simp [isEnqueueOrRead] at hop
  | close => simp [isEnqueueOrRead] at hop
  | error reason => simp [isEnqueueOrRead] at hop

theorem step_accepts_default (s : Stream) (r : Reader) (op : Op)
    (hst : s.state = .Readable) (hr : s.reader = some r) (hmode : r.mode = .default)
    (hop : isEnqueueOrRead r.id op = true) :
    acceptedChunks (step s op).2 = enqueueArguments [op] := by
  cases op with
  | enqueue c =>
    cases hp : s.pendingReads with
    | nil => simp [step, enqueue, hst, hr, hmode, hp, acceptedChunks, enqueueArguments]
    | cons t ts => simp [step, enqueue, hst, hr, hmode, hp, acceptedChunks, enqueueArguments]
  | read readerId =>
    have hrid : readerId = r.id := by simpa [isEnqueueOrRead] using hop
    subst hrid
    cases hq : s.queue with
    | nil => simp [step, read, isAttached, hr, hst, hq, acceptedChunks, enqueueArguments]
    | cons c cs =>
      simp [step, read, isAttached, hr, hst, hq, acceptedChunks, enqueueArguments]
  | getReader mode => simp [isEnqueueOrRead] at hop
  | releaseLock readerId => simp [isEnqueueOrRead] at hop
  | readerCancel readerId reason => simp [isEnqueueOrRead] at hop
  | cancel reason => simp [isEnqueueOrRead] at hop
  | close => simp [isEnqueueOrRead] at hop
  | error reason => simp [isEnqueueOrRead] at hop

theorem run_settles_values (ops : List Op) :
    ∀ (s : Stream) (r : Reader), s.state = .Readable → s.closeRequested = false →
      s.reader = some r → (∀ op ∈ ops, isEnqueueOrRead r.id op = true) →
      ∀ t res, Event.settled t res ∈ (run s ops).2 → ∃ c, res = .value c := by
  induction ops with
  | nil => intro s r _ _ _ _ t res hmem; simp [run] at hmem
  | cons op rest ih =>
    intro s r hst hcr hr hops t res hmem
    have hop := hops op (List.mem_cons_self _ _)
    have hinv := step_enqueue_read_inv s r op hst hcr hr hop
    rw [run_cons] at hmem
    rcases List.mem_append.1 hmem with h | h
    · exact step_settles_values s r op hst hr hop t res h
    · exact ih _ r hinv.1 hinv.2.1 hinv.2.2 (fun o ho => hops o (List.mem_cons_of_mem _ ho))
        t res h

theorem run_accepts_default (ops : List Op) :
    ∀ (s : Stream) (r : Reader), s.state = .Readable → s.closeRequested = false →
      s.reader = some r → r.mode = .default → (∀ op ∈ ops, isEnqueueOrRead r.id op = true) →
      acceptedChunks (run s ops).2 = enqueueArguments ops := by
  induction ops with
  | nil => intro s r _ _ _ _ _; rfl
  | cons op rest ih =>
    intro s r hst hcr hr hmode hops
    have hop := hops op (List.mem_cons_self _ _)
    have hinv := step_enqueue_read_inv s r op hst hcr hr hop
    rw [run_cons, acceptedChunks_append, step_accepts_default s r op hst hr hmode hop,
      ih _ r hinv.1 hinv.2.1 hinv.2.2 hmode (fun o ho => hops o (List.mem_cons_of_mem _ ho))]
    simp [enqueueArguments, List.filterMap_cons]
    cases op <;> simp

theorem getReader_attached (s s1 : Stream) (mode : ReaderMode) (r : Reader)
    (hget : getReader s mode = (s1, [.attached r])) :
    s.reader = none ∧ s1.reader = some r := by
  unfold getReader at hget
  cases hr : s.reader with
  | some r0 => rw [hr] at hget; simp at hget
  | none =>
    rw [hr] at hget
    simp only [Prod.mk.injEq, List.cons.injEq, Event.attached.injEq, and_true] at hget
    refine ⟨rfl, ?_⟩
    rw [← hget.1, ← hget.2]

/-- C6: once getReader has returned a reader, after any sequence of calls that
does not release that reader the same reader is still the one attached,
locked is true, and getReader, in either mode, fails with TypeError and
returns the stream unchanged (reader, state, queue and all); before the first
getReader locked was false, locked is true exactly when a reader is attached,
and releasing the reader makes locked false again. The rows locked and
getReader of the prototype table are bound to the builtins of these two
operations. -/
theorem second_getReader_fails (s s1 : Stream) (mode : ReaderMode) (r : Reader) (ops : List Op)
    (hget : getReader s mode = (s1, [.attached r]))
    (hops : ∀ op ∈ ops, op ≠ .releaseLock r.id) :
    (run s1 ops).1.reader = some r
    ∧ locked (run s1 ops).1 = true
    ∧ (∀ mode2, getReader (run s1 ops).1 mode2 = ((run s1 ops).1, [.failed .TypeError]))
    ∧ locked s = false
    ∧ (∀ t : Stream, locked t = true ↔ ∃ r2, t.reader = some r2)
    ∧ locked (releaseLock (run s1 ops).1 r.id).1 = false
    ∧ (["locked", "getReader"].map
        (fun name => (tableEntries JSReadableStreamPrototypeTableValues name).map (·.value1))
        = [[.BuiltinGenerator "readableStreamLockedCodeGenerator"],
           [.BuiltinGenerator "readableStreamGetReaderCodeGenerator"]]) := by
  obtain ⟨hnone, hsome⟩ := getReader_attached s s1 mode r hget
  have hkeep := run_keeps_reader ops s1 r hsome hops
  refine ⟨hkeep, ?_, ?_, ?_, ?_, ?_, by decide⟩
  · simp [locked, hkeep]
  · intro mode2
    simp [getReader, hkeep]
  · simp [locked, hnone]
  · intro t
    cases ht : t.reader <;> simp [locked, ht]
  · simp [releaseLock, isAttached, hkeep, locked]

/-- Witness of C6: on a stream constructed with high-water mark 1 and locked by
a default reader, after an enqueue, a read, a close and a failed getReader, a
further getReader in BYOB mode fails with TypeError. -/
theorem second_getReader_witness :
    getReader (run sampleStream
        [.enqueue (sampleChunk 1), .read 0, .close, .getReader .default]).1 .byob
      = ((run sampleStream [.enqueue (sampleChunk 1), .read 0, .close, .getReader .default]).1,
          [.failed .TypeError]) :=
  (second_getReader_fails (construct 1 false) sampleStream .default { id := 0, mode := .default }
    [.enqueue (sampleChunk 1), .read 0, .close, .getReader .default] rfl (by decide)).2.2.1 .byob

/-- C7: on a Readable stream on which close has not been called, with an
attached reader and no pending read request, take any interleaving of enqueue
calls and of read calls on that reader. The chunks that the read requests
return are, in the order of the requests (tickets count up from the first
read), the queued chunks followed by the chunks that enqueue accepted, in
that order, each once; no read request is settled with done or a rejection;
and for a default reader every enqueue is accepted, so the accepted chunks are
the arguments of the enqueue calls in call order. -/
theorem reads_return_enqueue_order (s : Stream) (r : Reader) (ops : List Op)
    (hst : s.state = .Readable) (hcr : s.closeRequested = false) (hr : s.reader = some r)
    (hp : s.pendingReads = []) (hops : ∀ op ∈ ops, isEnqueueOrRead r.id op = true) :
    deliveries (run s ops).2
      = List.zip (List.range' s.nextTicket (readCount ops))
          (s.queue ++ acceptedChunks (run s ops).2)
    ∧ (deliveries (run s ops).2).map Prod.snd
      = (s.queue ++ acceptedChunks (run s ops).2).take (readCount ops)
    ∧ (∀ t res, Event.settled t res ∈ (run s ops).2 → ∃ c, res = .value c)
    ∧ (r.mode = .default → acceptedChunks (run s ops).2 = enqueueArguments ops) := by
  have h := fifo_general ops s r [] s.queue s.nextTicket hp rfl rfl hst hcr hr (Or.inl rfl) hops
  simp only [List.nil_append] at h
  refine ⟨h, ?_, run_settles_values ops s r hst hcr hr hops,
    fun hmode => run_accepts_default ops s r hst hcr hr hmode hops⟩
  rw [h]
  generalize s.queue ++ acceptedChunks (run s ops).2 = chunks
  generalize s.nextTicket = n
  generalize readCount ops = k
  induction k generalizing n chunks with
  | zero => simp
  | succ k ih =>
    cases chunks with
    | nil => simp
    | cons c cs => simp [List.range'_succ, ih]

/-- Witness of C7: on the locked sample stream, enqueue 10, read, read, enqueue
20, enqueue 30, read: the three reads get 10, 20 and 30 in that order. -/
theorem reads_return_enqueue_order_witness :
    deliveries (run sampleStream
        [.enqueue (sampleChunk 1), .read 0, .read 0, .enqueue (sampleChunk 2),
          .enqueue (sampleChunk 3), .read 0]).2
      = [(0, sampleChunk 1), (1, sampleChunk 2), (2, sampleChunk 3)] :=
  (reads_return_enqueue_order sampleStream { id := 0, mode := .default }
    [.enqueue (sampleChunk 1), .read 0, .read 0, .enqueue (sampleChunk 2),
      .enqueue (sampleChunk 3), .read 0] rfl rfl rfl rfl (by decide)).1.trans (by decide)

end Engine

end WebCore
